import Mathlib

/-!
Verification of the BetterMousekeys keyboard-driven mouse controller
(`mousekeys.cpp`).  The global low-level keyboard hook, the shared key/mode
state, the fixed-rate physics tick, the click/drag edge translator and the
shutdown cleanup are embedded as Lean definitions.  Screen geometry and the
floating-point cursor arithmetic are modelled over the reals; virtual-key
codes are natural numbers.
-/

namespace Mousekeys

/-- Windows virtual-key code for the up arrow (0x26). -/
def VK_UP : Nat := 38

/-- Windows virtual-key code for the down arrow (0x28). -/
def VK_DOWN : Nat := 40

/-- Windows virtual-key code for the left arrow (0x25). -/
def VK_LEFT : Nat := 37

/-- Windows virtual-key code for the right arrow (0x27). -/
def VK_RIGHT : Nat := 39

/-- Windows virtual-key code for the left shift key (0xA0), the speed modifier. -/
def VK_LSHIFT : Nat := 160

/-- Windows virtual-key code for the right shift key (0xA1). -/
def VK_RSHIFT : Nat := 161

/-- Windows virtual-key code for Caps Lock (0x14). -/
def VK_CAPITAL : Nat := 20

/-- Virtual-key code of the letter K (alias for moving up). -/
def KEY_K : Nat := 75

/-- Virtual-key code of the letter J (alias for moving down). -/
def KEY_J : Nat := 74

/-- Virtual-key code of the letter H (alias for moving left). -/
def KEY_H : Nat := 72

/-- Virtual-key code of the letter L (alias for moving right). -/
def KEY_L : Nat := 76

/-- `LEFT_CLICK_KEY = 'Z'` from the configuration block. -/
def LEFT_CLICK_KEY : Nat := 90

/-- `RIGHT_CLICK_KEY = 'X'` from the configuration block. -/
def RIGHT_CLICK_KEY : Nat := 88

/-- The four wParam message kinds a WH_KEYBOARD_LL hook receives. -/
inductive WMsg
  | keyDown
  | sysKeyDown
  | keyUp
  | sysKeyUp
deriving DecidableEq

/-- Mirrors `wParam == WM_KEYDOWN || wParam == WM_SYSKEYDOWN`. -/
def isDownW : WMsg → Bool
  | WMsg.keyDown => true
  | WMsg.sysKeyDown => true
  | _ => false

/-- Mirrors `wParam == WM_KEYUP || wParam == WM_SYSKEYUP`. -/
def isUpW : WMsg → Bool
  | WMsg.keyUp => true
  | WMsg.sysKeyUp => true
  | _ => false

/-- The eleven atomic key flags of the program: one per tracked physical key
(arrows, HJKL letters, the two click keys and left shift). -/
structure KeyState where
  key_up : Bool := false
  key_down : Bool := false
  key_left : Bool := false
  key_right : Bool := false
  key_k : Bool := false
  key_h : Bool := false
  key_j : Bool := false
  key_l : Bool := false
  leftClickPressed : Bool := false
  rightClickPressed : Bool := false
  shiftPressed : Bool := false
deriving DecidableEq

/-- The key flags together with the `enabled` controller-mode flag. -/
structure HookState where
  keys : KeyState := {}
  enabled : Bool := false
deriving DecidableEq

/-- Pass-through decision of the hook: `swallow` models `return 1`, `forward`
models `return CallNextHookEx(...)`. -/
inductive HookResult
  | swallow
  | forward
deriving DecidableEq

/-- Mirrors the sequential stores `if (isDown) f.store(true); if (isUp)
f.store(false);` applied to one flag. -/
def setFlag (old isDown isUp : Bool) : Bool :=
  let v := if isDown then true else old
  if isUp then false else v

/-- The defensive reset performed for every event processed while disabled
(source lines 172–180): the eight movement flags and `shiftPressed` are
stored false; the two click flags are not touched. -/
def resetWhileDisabled (k : KeyState) : KeyState :=
  { k with
    key_up := false, key_down := false, key_left := false, key_right := false,
    key_k := false, key_j := false, key_h := false, key_l := false,
    shiftPressed := false }

/-- Shallow embedding of `LowLevelKeyboardProc`: given the shared state, the
hook code, the virtual-key code and the message kind, it returns the new
shared state and the pass-through decision. -/
def lowLevelKeyboardProc (st : HookState) (nCode : Int) (vkCode : Nat) (w : WMsg) :
    HookState × HookResult :=
  if nCode < 0 then (st, HookResult.forward)
  else
    let isDown := isDownW w
    let isUp := isUpW w
    if isDown = true ∧ (vkCode = VK_RSHIFT ∨ vkCode = VK_CAPITAL) then
      ({ st with enabled := !st.enabled }, HookResult.swallow)
    else if st.enabled = true then
      if vkCode = VK_UP then
        ({ st with keys := { st.keys with key_up := setFlag st.keys.key_up isDown isUp } },
          HookResult.swallow)
      else if vkCode = VK_DOWN then
        ({ st with keys := { st.keys with key_down := setFlag st.keys.key_down isDown isUp } },
          HookResult.swallow)
      else if vkCode = VK_LEFT then
        ({ st with keys := { st.keys with key_left := setFlag st.keys.key_left isDown isUp } },
          HookResult.swallow)
      else if vkCode = VK_RIGHT then
        ({ st with keys := { st.keys with key_right := setFlag st.keys.key_right isDown isUp } },
          HookResult.swallow)
      else if vkCode = KEY_K then
        ({ st with keys := { st.keys with key_k := setFlag st.keys.key_k isDown isUp } },
          HookResult.swallow)
      else if vkCode = KEY_J then
        ({ st with keys := { st.keys with key_j := setFlag st.keys.key_j isDown isUp } },
          HookResult.swallow)
      else if vkCode = KEY_H then
        ({ st with keys := { st.keys with key_h := setFlag st.keys.key_h isDown isUp } },
          HookResult.swallow)
      else if vkCode = KEY_L then
        ({ st with keys := { st.keys with key_l := setFlag st.keys.key_l isDown isUp } },
          HookResult.swallow)
      else if vkCode = LEFT_CLICK_KEY then
        ({ st with keys :=
            { st.keys with leftClickPressed := setFlag st.keys.leftClickPressed isDown isUp } },
          HookResult.swallow)
      else if vkCode = RIGHT_CLICK_KEY then
        ({ st with keys :=
            { st.keys with rightClickPressed := setFlag st.keys.rightClickPressed isDown isUp } },
          HookResult.swallow)
      else if vkCode = VK_LSHIFT then
        ({ st with keys :=
            { st.keys with shiftPressed := setFlag st.keys.shiftPressed isDown isUp } },
          HookResult.swallow)
      else (st, HookResult.forward)
    else
      ({ st with keys := resetWhileDisabled st.keys }, HookResult.forward)

/-- Runs the hook at `nCode = 0` (HC_ACTION) over a list of key events,
threading the shared state. -/
def processEvents (st : HookState) (evs : List (Nat × WMsg)) : HookState :=
  evs.foldl (fun s e => (lowLevelKeyboardProc s 0 e.1 e.2).1) st

/-- The up-direction read performed by the physics loop:
`key_up.load() || key_k.load()`. -/
def upHeld (k : KeyState) : Bool := k.key_up || k.key_k

/-- The down-direction read: `key_down.load() || key_j.load()`. -/
def downHeld (k : KeyState) : Bool := k.key_down || k.key_j

/-- The left-direction read: `key_left.load() || key_h.load()`. -/
def leftHeld (k : KeyState) : Bool := k.key_left || k.key_h

/-- The right-direction read: `key_right.load() || key_l.load()`. -/
def rightHeld (k : KeyState) : Bool := k.key_right || k.key_l

/-- Modelled from the spec: the direction (down ⇒ true, up ⇒ false) of the
most recent event whose key code is one of the two given aliases, used to
state the spec sentence "reflects the most recent down/up event observed for
any of its aliases". -/
def lastDirAliases (a b : Nat) (evs : List (Nat × WMsg)) (dflt : Bool) : Bool :=
  evs.foldl (fun acc e => if e.1 = a ∨ e.1 = b then isDownW e.2 else acc) dflt

/-- Direction of the most recent event on one single physical key code,
falling back to a default when no event mentions that code. -/
def lastDirOn (c : Nat) (evs : List (Nat × WMsg)) (dflt : Bool) : Bool :=
  evs.foldl (fun acc e => if e.1 = c then isDownW e.2 else acc) dflt

/-- Synthetic pointer-button events produced through `SendInput`:
`sendMouseDown left` is `down left`, `sendMouseUp left` is `up left`. -/
inductive MouseEvent
  | down (left : Bool)
  | up (left : Bool)
deriving DecidableEq

/-- One tick of the click/drag edge detection (source lines 289–307): the
events emitted this tick, in source order, and the new stored previous
values for the two buttons. -/
def edgeTranslate (prevLeft prevRight curLeft curRight : Bool) :
    List MouseEvent × Bool × Bool :=
  ((if curLeft && !prevLeft then [MouseEvent.down true] else []) ++
   (if !curLeft && prevLeft then [MouseEvent.up true] else []) ++
   (if curRight && !prevRight then [MouseEvent.down false] else []) ++
   (if !curRight && prevRight then [MouseEvent.up false] else []),
   curLeft, curRight)

/-- Runs the edge translator over a sequence of per-tick samples of the two
button flags, threading the stored previous values; each output entry is the
events of that tick together with the stored values after the tick. -/
def runEdgeTranslator : Bool × Bool → List (Bool × Bool) → List (List MouseEvent × (Bool × Bool))
  | _, [] => []
  | p, c :: cs =>
    let r := edgeTranslate p.1 p.2 c.1 c.2
    (r.1, r.2) :: runEdgeTranslator r.2 cs

/-- Number of emitted events of the given kind (`d = true` for button-down)
for the given button (`l = true` for the left button). -/
def mouseCount (d l : Bool) (evs : List MouseEvent) : Nat :=
  evs.countP (fun e =>
    match e with
    | MouseEvent.down b => d && (b == l)
    | MouseEvent.up b => !d && (b == l))

/-- The shutdown cleanup in `WinMain` (source lines 389–390): one synthetic
button-up per button whose stored previous value is still true. -/
def exitCleanup (prevLeft prevRight : Bool) : List MouseEvent :=
  (if prevLeft then [MouseEvent.up true] else []) ++
  (if prevRight then [MouseEvent.up false] else [])

/-- `MAX_SPEED_PIX_PER_S = 700.0f`, the configured top speed in pixels per
second; the float arithmetic of the physics loop is modelled over ℝ. -/
noncomputable def MAX_SPEED_PIX_PER_S : ℝ := 700

/-- The direction-gathering step of the physics tick (source lines 221–229):
`dx`/`dy` start at 0 and each held direction adds its unit contribution. -/
noncomputable def gatherDirection (k : KeyState) : ℝ × ℝ :=
  let dx : ℝ := 0
  let dy : ℝ := 0
  let dy := if upHeld k then dy - 1 else dy
  let dy := if downHeld k then dy + 1 else dy
  let dx := if leftHeld k then dx - 1 else dx
  let dx := if rightHeld k then dx + 1 else dx
  (dx, dy)

/-- The normalization step (source lines 231–236): `speed = hypot(dx, dy)`;
when positive, both components are divided by it. -/
noncomputable def normalizeDir (d : ℝ × ℝ) : ℝ × ℝ :=
  let speed := Real.sqrt (d.1 ^ 2 + d.2 ^ 2)
  if speed > 0 then (d.1 / speed, d.2 / speed) else d

/-- The integration step (source lines 259–263): scalar speed is the top
speed, halved when the shift flag is set, and the normalized direction times
`speed * dt` is added to the position. -/
noncomputable def integrate (k : KeyState) (dt px py : ℝ) : ℝ × ℝ :=
  let d := normalizeDir (gatherDirection k)
  let speedMult : ℝ := if k.shiftPressed then 0.5 else 1.0
  let move := MAX_SPEED_PIX_PER_S * speedMult * dt
  (px + d.1 * move, py + d.2 * move)

/-- The clamping step (source lines 266–283): each coordinate is first
raised to 0 and then lowered to `dimension - 1`, the two axes independently. -/
noncomputable def clampToScreen (screenW screenH : Int) (px py : ℝ) : ℝ × ℝ :=
  let px1 := if px < 0 then 0 else px
  let py1 := if py < 0 then 0 else py
  let px2 := if px1 > (screenW : ℝ) - 1 then (screenW : ℝ) - 1 else px1
  let py2 := if py1 > (screenH : ℝ) - 1 then (screenH : ℝ) - 1 else py1
  (px2, py2)

/-- `std::lround`: round half away from zero, as used by the final
`SetCursorPos((int)std::lround(px), (int)std::lround(py))`. -/
noncomputable def lround (x : ℝ) : Int :=
  if x < 0 then -⌊-x + 1 / 2⌋ else ⌊x + 1 / 2⌋

/-- One enabled physics tick restricted to cursor movement: gather,
normalize, integrate, clamp, and round for the cursor write; the result is
the retained double-precision position and the integer position written to
the OS cursor. -/
noncomputable def enabledTick (screenW screenH : Int) (k : KeyState) (dt px py : ℝ) :
    (ℝ × ℝ) × (Int × Int) :=
  let p := integrate k dt px py
  let c := clampToScreen screenW screenH p.1 p.2
  (c, (lround c.1, lround c.2))

/-- Initialization of the physics loop position (source lines 190–198): the
queried OS cursor position when `GetCursorPos` succeeds, otherwise the
screen center `(screenW / 2, screenH / 2)` (C integer division). -/
noncomputable def initCursorPos (query : Option (Int × Int)) (screenW screenH : Int) : ℝ × ℝ :=
  match query with
  | some p => ((p.1 : ℝ), (p.2 : ℝ))
  | none => (((screenW / 2 : Int) : ℝ), ((screenH / 2 : Int) : ℝ))

/-- Applying the sequential down/up stores for one delivered hook message
always leaves the flag equal to the message's direction. -/
theorem setFlag_eq (old : Bool) (w : WMsg) : setFlag old (isDownW w) (isUpW w) = isDownW w := by
  cases w <;> rfl

/-- C1: with the controller enabled, a left-shift (speed modifier) event is
applied to the shift flag but the hook returns 1, i.e. the event is
swallowed rather than forwarded, on both the down-edge and the up-edge. -/
theorem c1_speed_modifier_swallowed :
    (lowLevelKeyboardProc { keys := {}, enabled := true } 0 VK_LSHIFT WMsg.keyDown).1.keys.shiftPressed
        = true
    ∧ (lowLevelKeyboardProc { keys := {}, enabled := true } 0 VK_LSHIFT WMsg.keyDown).2
        = HookResult.swallow
    ∧ (lowLevelKeyboardProc { keys := { shiftPressed := true }, enabled := true } 0 VK_LSHIFT
        WMsg.keyUp).1.keys.shiftPressed = false
    ∧ (lowLevelKeyboardProc { keys := { shiftPressed := true }, enabled := true } 0 VK_LSHIFT
        WMsg.keyUp).2 = HookResult.swallow := by
  decide

/-- C2, counterexample: a Caps Lock down-edge while enabled with the up flag
held transitions the mode to Disabled but leaves `key_up` reading true; and
a key event processed while Disabled leaves a held click flag untouched. -/
theorem c2_counterexample :
    (lowLevelKeyboardProc { keys := { key_up := true }, enabled := true } 0 VK_CAPITAL
        WMsg.keyDown).1.enabled = false
    ∧ (lowLevelKeyboardProc { keys := { key_up := true }, enabled := true } 0 VK_CAPITAL
        WMsg.keyDown).1.keys.key_up = true
    ∧ (lowLevelKeyboardProc { keys := { leftClickPressed := true }, enabled := false } 0 65
        WMsg.keyDown).1.keys.leftClickPressed = true := by
  decide

/-- C2, amended: the toggle itself leaves every key flag unchanged and only
flips the mode; clearing is lazy: every non-toggle event processed while
Disabled resets the eight movement flags and the shift flag to false,
leaves the two click flags untouched, and forwards the event. -/
theorem c2_disabled_reset (st : HookState) (nCode : Int) (kb : Nat) (w : WMsg)
    (hn : 0 ≤ nCode) :
    (isDownW w = true ∧ (kb = VK_RSHIFT ∨ kb = VK_CAPITAL) →
      (lowLevelKeyboardProc st nCode kb w).1.keys = st.keys ∧
      (lowLevelKeyboardProc st nCode kb w).1.enabled = !st.enabled)
    ∧ (st.enabled = false → ¬(isDownW w = true ∧ (kb = VK_RSHIFT ∨ kb = VK_CAPITAL)) →
      (lowLevelKeyboardProc st nCode kb w).1.keys = resetWhileDisabled st.keys ∧
      (lowLevelKeyboardProc st nCode kb w).2 = HookResult.forward)
    ∧ (resetWhileDisabled st.keys).key_up = false
    ∧ (resetWhileDisabled st.keys).key_down = false
    ∧ (resetWhileDisabled st.keys).key_left = false
    ∧ (resetWhileDisabled st.keys).key_right = false
    ∧ (resetWhileDisabled st.keys).key_k = false
    ∧ (resetWhileDisabled st.keys).key_j = false
    ∧ (resetWhileDisabled st.keys).key_h = false
    ∧ (resetWhileDisabled st.keys).key_l = false
    ∧ (resetWhileDisabled st.keys).shiftPressed = false
    ∧ (resetWhileDisabled st.keys).leftClickPressed = st.keys.leftClickPressed
    ∧ (resetWhileDisabled st.keys).rightClickPressed = st.keys.rightClickPressed := by
  have h0 : ¬ nCode < 0 := not_lt.mpr hn
  refine ⟨?_, ?_, rfl, rfl, rfl, rfl, rfl, rfl, rfl, rfl, rfl, rfl, rfl⟩
  · intro h
    simp [lowLevelKeyboardProc, if_neg h0, if_pos h]
  · intro hdis hnot
    simp only [lowLevelKeyboardProc, if_neg h0, if_neg hnot, hdis]
    simp

/-- C2, witness: an unmatched letter event while Disabled resets the flags
to the defensive-reset state and is forwarded. -/
theorem c2_disabled_reset_witness :
    (lowLevelKeyboardProc
        { keys := { key_up := true, leftClickPressed := true }, enabled := false }
        0 65 WMsg.keyDown).1.keys
      = resetWhileDisabled { key_up := true, leftClickPressed := true }
    ∧ (lowLevelKeyboardProc
        { keys := { key_up := true, leftClickPressed := true }, enabled := false }
        0 65 WMsg.keyDown).2 = HookResult.forward :=
  (c2_disabled_reset { keys := { key_up := true, leftClickPressed := true }, enabled := false }
    0 65 WMsg.keyDown (by decide)).2.1 rfl (by decide)

/-- C7: at shutdown, each button with stored previous value true gets
exactly one synthetic button-up, and a button with previous value false gets
no event at all; no down events are ever emitted. -/
theorem c7_exit_cleanup :
    ∀ pl pr : Bool,
      mouseCount false true (exitCleanup pl pr) = (if pl then 1 else 0)
      ∧ mouseCount false false (exitCleanup pl pr) = (if pr then 1 else 0)
      ∧ mouseCount true true (exitCleanup pl pr) = 0
      ∧ mouseCount true false (exitCleanup pl pr) = 0
      ∧ (exitCleanup pl pr).length = (if pl then 1 else 0) + (if pr then 1 else 0) := by
  decide

/-- C10: the physics loop position starts at the queried OS cursor position
when the query succeeds and at the screen center (integer halves of the
screen dimensions) when it fails. -/
theorem c10_initial_position (screenW screenH : Int) (p : Int × Int) :
    initCursorPos (some p) screenW screenH = ((p.1 : ℝ), (p.2 : ℝ))
    ∧ initCursorPos none screenW screenH
        = (((screenW / 2 : Int) : ℝ), ((screenH / 2 : Int) : ℝ)) :=
  ⟨rfl, rfl⟩

/-- Any event that is not a down-edge of Right Shift or Caps Lock leaves the
controller mode unchanged, whatever branch it takes. -/
theorem enabled_unchanged_of_not_toggle (st : HookState) (nCode : Int) (kb : Nat) (w : WMsg)
    (h : ¬(isDownW w = true ∧ (kb = VK_RSHIFT ∨ kb = VK_CAPITAL))) :
    (lowLevelKeyboardProc st nCode kb w).1.enabled = st.enabled := by
  by_cases h0 : nCode < 0
  · simp [lowLevelKeyboardProc, if_pos h0]
  · simp only [lowLevelKeyboardProc, if_neg h0, if_neg h]
    simp only [apply_ite (fun r : HookState × HookResult => r.1.enabled)]
    simp

/-- C8, counterexample: there is no single key whose down-edges are exactly
the events that flip the controller mode: both Caps Lock and Right Shift
down-edges flip it. -/
theorem c8_counterexample :
    ¬ ∃ t : Nat, ∀ (st : HookState) (kb : Nat) (w : WMsg),
        ((lowLevelKeyboardProc st 0 kb w).1.enabled ≠ st.enabled
          ↔ (isDownW w = true ∧ kb = t)) := by
  rintro ⟨t, h⟩
  have h1 := (h { keys := {}, enabled := false } VK_CAPITAL WMsg.keyDown).mp (by decide)
  have h2 := (h { keys := {}, enabled := false } VK_RSHIFT WMsg.keyDown).mp (by decide)
  have h3 : VK_CAPITAL = VK_RSHIFT := h1.2.trans h2.2.symm
  exact absurd h3 (by decide)

/-- C8, amended: there are exactly two toggle keys, Right Shift and Caps
Lock; an event flips the controller mode if and only if it is a down-edge of
one of these two, in which case it is swallowed unconditionally and the key
flags are untouched, regardless of the current mode. -/
theorem c8_toggle_pair (st : HookState) (nCode : Int) (kb : Nat) (w : WMsg)
    (hn : 0 ≤ nCode) :
    ((lowLevelKeyboardProc st nCode kb w).1.enabled ≠ st.enabled
      ↔ (isDownW w = true ∧ (kb = VK_RSHIFT ∨ kb = VK_CAPITAL)))
    ∧ (isDownW w = true ∧ (kb = VK_RSHIFT ∨ kb = VK_CAPITAL) →
        lowLevelKeyboardProc st nCode kb w
          = ({ st with enabled := !st.enabled }, HookResult.swallow)) := by
  have h0 : ¬ nCode < 0 := not_lt.mpr hn
  have htog : ∀ h : isDownW w = true ∧ (kb = VK_RSHIFT ∨ kb = VK_CAPITAL),
      lowLevelKeyboardProc st nCode kb w
        = ({ st with enabled := !st.enabled }, HookResult.swallow) := by
    intro h
    simp [lowLevelKeyboardProc, if_neg h0, if_pos h]
  constructor
  · constructor
    · intro hne
      by_contra hnot
      exact hne (enabled_unchanged_of_not_toggle st nCode kb w hnot)
    · intro h
      rw [htog h]
      cases hst : st.enabled <;> simp
  · exact htog

/-- C8, witness: a Right Shift down-edge at a disabled state flips the mode. -/
theorem c8_toggle_pair_witness :
    (lowLevelKeyboardProc { keys := {}, enabled := false } 0 VK_RSHIFT WMsg.keyDown).1.enabled
      ≠ false :=
  ((c8_toggle_pair { keys := {}, enabled := false } 0 VK_RSHIFT WMsg.keyDown
    (by decide)).1).mpr (by decide)

/-- C3: running the edge translator over a sequence of per-tick samples
threads the stored previous values so that tick `i` compares sample `i - 1`
(or the initial stored value) with sample `i` and stores sample `i`; one
tick emits, per button, exactly one down event on a false→true transition,
exactly one up event on a true→false transition, and its events are only
those, so nothing is emitted when previous equals current. -/
theorem c3_edge_translation (p : Bool × Bool) (samples : List (Bool × Bool)) :
    runEdgeTranslator p samples
      = ((p :: samples).zip samples).map
          (fun q => ((edgeTranslate q.1.1 q.1.2 q.2.1 q.2.2).1, q.2))
    ∧ ∀ pl pr cl cr : Bool,
        mouseCount true true (edgeTranslate pl pr cl cr).1 = (if cl && !pl then 1 else 0)
        ∧ mouseCount false true (edgeTranslate pl pr cl cr).1 = (if !cl && pl then 1 else 0)
        ∧ mouseCount true false (edgeTranslate pl pr cl cr).1 = (if cr && !pr then 1 else 0)
        ∧ mouseCount false false (edgeTranslate pl pr cl cr).1 = (if !cr && pr then 1 else 0)
        ∧ ((edgeTranslate pl pr cl cr).1).length
            = (if cl && !pl then 1 else 0) + (if !cl && pl then 1 else 0)
              + (if cr && !pr then 1 else 0) + (if !cr && pr then 1 else 0)
        ∧ (edgeTranslate pl pr cl cr).2 = (cl, cr) := by
  constructor
  · induction samples generalizing p with
    | nil => rfl
    | cons c cs ih =>
      have h2 : (edgeTranslate p.1 p.2 c.1 c.2).2 = c := rfl
      simp only [runEdgeTranslator, List.zip_cons_cons, List.map_cons]
      rw [h2, ih c]
  · decide

/-- One enabled, non-toggle hook invocation keeps the mode enabled and
updates each movement flag exactly when the event's key code is that flag's
own physical key, to the event's direction. -/
theorem step_enabled_flags (st : HookState) (kb : Nat) (w : WMsg)
    (hen : st.enabled = true)
    (hnt : ¬(isDownW w = true ∧ (kb = VK_RSHIFT ∨ kb = VK_CAPITAL))) :
    (lowLevelKeyboardProc st 0 kb w).1.enabled = true
    ∧ (lowLevelKeyboardProc st 0 kb w).1.keys.key_up
        = (if kb = VK_UP then isDownW w else st.keys.key_up)
    ∧ (lowLevelKeyboardProc st 0 kb w).1.keys.key_k
        = (if kb = KEY_K then isDownW w else st.keys.key_k)
    ∧ (lowLevelKeyboardProc st 0 kb w).1.keys.key_down
        = (if kb = VK_DOWN then isDownW w else st.keys.key_down)
    ∧ (lowLevelKeyboardProc st 0 kb w).1.keys.key_j
        = (if kb = KEY_J then isDownW w else st.keys.key_j)
    ∧ (lowLevelKeyboardProc st 0 kb w).1.keys.key_left
        = (if kb = VK_LEFT then isDownW w else st.keys.key_left)
    ∧ (lowLevelKeyboardProc st 0 kb w).1.keys.key_h
        = (if kb = KEY_H then isDownW w else st.keys.key_h)
    ∧ (lowLevelKeyboardProc st 0 kb w).1.keys.key_right
        = (if kb = VK_RIGHT then isDownW w else st.keys.key_right)
    ∧ (lowLevelKeyboardProc st 0 kb w).1.keys.key_l
        = (if kb = KEY_L then isDownW w else st.keys.key_l) := by
  have h0 : ¬ ((0 : Int) < 0) := by decide
  simp only [lowLevelKeyboardProc, if_neg h0, if_neg hnt, hen, if_pos rfl]
  by_cases h1 : kb = VK_UP
  · subst h1
    simp [VK_UP, VK_DOWN, VK_LEFT, VK_RIGHT, KEY_K, KEY_J, KEY_H, KEY_L, LEFT_CLICK_KEY,
      RIGHT_CLICK_KEY, VK_LSHIFT, setFlag_eq]
  by_cases h2 : kb = VK_DOWN
  · subst h2
    simp [VK_UP, VK_DOWN, VK_LEFT, VK_RIGHT, KEY_K, KEY_J, KEY_H, KEY_L, LEFT_CLICK_KEY,
      RIGHT_CLICK_KEY, VK_LSHIFT, setFlag_eq]
  by_cases h3 : kb = VK_LEFT
  · subst h3
    simp [VK_UP, VK_DOWN, VK_LEFT, VK_RIGHT, KEY_K, KEY_J, KEY_H, KEY_L, LEFT_CLICK_KEY,
      RIGHT_CLICK_KEY, VK_LSHIFT, setFlag_eq]
  by_cases h4 : kb = VK_RIGHT
  · subst h4
    simp [VK_UP, VK_DOWN, VK_LEFT, VK_RIGHT, KEY_K, KEY_J, KEY_H, KEY_L, LEFT_CLICK_KEY,
      RIGHT_CLICK_KEY, VK_LSHIFT, setFlag_eq]
  by_cases h5 : kb = KEY_K
  · subst h5
    simp [VK_UP, VK_DOWN, VK_LEFT, VK_RIGHT, KEY_K, KEY_J, KEY_H, KEY_L, LEFT_CLICK_KEY,
      RIGHT_CLICK_KEY, VK_LSHIFT, setFlag_eq]
  by_cases h6 : kb = KEY_J
  · subst h6
    simp [VK_UP, VK_DOWN, VK_LEFT, VK_RIGHT, KEY_K, KEY_J, KEY_H, KEY_L, LEFT_CLICK_KEY,
      RIGHT_CLICK_KEY, VK_LSHIFT, setFlag_eq]
  by_cases h7 : kb = KEY_H
  · subst h7
    simp [VK_UP, VK_DOWN, VK_LEFT, VK_RIGHT, KEY_K, KEY_J, KEY_H, KEY_L, LEFT_CLICK_KEY,
      RIGHT_CLICK_KEY, VK_LSHIFT, setFlag_eq]
  by_cases h8 : kb = KEY_L
  · subst h8
    simp [VK_UP, VK_DOWN, VK_LEFT, VK_RIGHT, KEY_K, KEY_J, KEY_H, KEY_L, LEFT_CLICK_KEY,
      RIGHT_CLICK_KEY, VK_LSHIFT, setFlag_eq]
  by_cases h9 : kb = LEFT_CLICK_KEY
  · subst h9
    simp [VK_UP, VK_DOWN, VK_LEFT, VK_RIGHT, KEY_K, KEY_J, KEY_H, KEY_L, LEFT_CLICK_KEY,
      RIGHT_CLICK_KEY, VK_LSHIFT, setFlag_eq]
  by_cases h10 : kb = RIGHT_CLICK_KEY
  · subst h10
    simp [VK_UP, VK_DOWN, VK_LEFT, VK_RIGHT, KEY_K, KEY_J, KEY_H, KEY_L, LEFT_CLICK_KEY,
      RIGHT_CLICK_KEY, VK_LSHIFT, setFlag_eq]
  by_cases h11 : kb = VK_LSHIFT
  · subst h11
    simp [VK_UP, VK_DOWN, VK_LEFT, VK_RIGHT, KEY_K, KEY_J, KEY_H, KEY_L, LEFT_CLICK_KEY,
      RIGHT_CLICK_KEY, VK_LSHIFT, setFlag_eq]
  · simp [h1, h2, h3, h4, h5, h6, h7, h8, h9, h10, h11, hen]

/-- Over any toggle-free event sequence processed while enabled, each of the
eight movement flags equals the direction of the most recent event on its
own physical key code. -/
theorem tracking_aux (evs : List (Nat × WMsg)) :
    ∀ st : HookState, st.enabled = true →
    (∀ e ∈ evs, ¬(isDownW e.2 = true ∧ (e.1 = VK_RSHIFT ∨ e.1 = VK_CAPITAL))) →
    (processEvents st evs).enabled = true
    ∧ (processEvents st evs).keys.key_up = lastDirOn VK_UP evs st.keys.key_up
    ∧ (processEvents st evs).keys.key_k = lastDirOn KEY_K evs st.keys.key_k
    ∧ (processEvents st evs).keys.key_down = lastDirOn VK_DOWN evs st.keys.key_down
    ∧ (processEvents st evs).keys.key_j = lastDirOn KEY_J evs st.keys.key_j
    ∧ (processEvents st evs).keys.key_left = lastDirOn VK_LEFT evs st.keys.key_left
    ∧ (processEvents st evs).keys.key_h = lastDirOn KEY_H evs st.keys.key_h
    ∧ (processEvents st evs).keys.key_right = lastDirOn VK_RIGHT evs st.keys.key_right
    ∧ (processEvents st evs).keys.key_l = lastDirOn KEY_L evs st.keys.key_l := by
  induction evs with
  | nil =>
    intro st hen _
    exact ⟨hen, rfl, rfl, rfl, rfl, rfl, rfl, rfl, rfl⟩
  | cons e es ih =>
    intro st hen hnt
    have hne : ¬(isDownW e.2 = true ∧ (e.1 = VK_RSHIFT ∨ e.1 = VK_CAPITAL)) :=
      hnt e (List.mem_cons_self e es)
    have hs := step_enabled_flags st e.1 e.2 hen hne
    have hih := ih (lowLevelKeyboardProc st 0 e.1 e.2).1 hs.1
      (fun x hx => hnt x (List.mem_cons_of_mem e hx))
    have hpe : processEvents st (e :: es)
        = processEvents (lowLevelKeyboardProc st 0 e.1 e.2).1 es := rfl
    rw [hpe]
    refine ⟨hih.1, ?_, ?_, ?_, ?_, ?_, ?_, ?_, ?_⟩
    · rw [hih.2.1, hs.2.1]; rfl
    · rw [hih.2.2.1, hs.2.2.1]; rfl
    · rw [hih.2.2.2.1, hs.2.2.2.1]; rfl
    · rw [hih.2.2.2.2.1, hs.2.2.2.2.1]; rfl
    · rw [hih.2.2.2.2.2.1, hs.2.2.2.2.2.1]; rfl
    · rw [hih.2.2.2.2.2.2.1, hs.2.2.2.2.2.2.1]; rfl
    · rw [hih.2.2.2.2.2.2.2.1, hs.2.2.2.2.2.2.2.1]; rfl
    · rw [hih.2.2.2.2.2.2.2.2, hs.2.2.2.2.2.2.2.2]; rfl

/-- C9, counterexample: while enabled, pressing the up arrow, pressing the
K alias, then releasing the up arrow leaves the up direction reading true,
whereas the most recent event observed on the aliases is an up-edge, i.e.
false. -/
theorem c9_counterexample :
    upHeld (processEvents { keys := {}, enabled := true }
        [(VK_UP, WMsg.keyDown), (KEY_K, WMsg.keyDown), (VK_UP, WMsg.keyUp)]).keys = true
    ∧ lastDirAliases VK_UP KEY_K
        [(VK_UP, WMsg.keyDown), (KEY_K, WMsg.keyDown), (VK_UP, WMsg.keyUp)] false = false
    ∧ upHeld (processEvents { keys := {}, enabled := true }
        [(VK_UP, WMsg.keyDown), (KEY_K, WMsg.keyDown), (VK_UP, WMsg.keyUp)]).keys
      ≠ lastDirAliases VK_UP KEY_K
        [(VK_UP, WMsg.keyDown), (KEY_K, WMsg.keyDown), (VK_UP, WMsg.keyUp)] false := by
  decide

/-- C9, amended: over any toggle-free sequence of events processed while
enabled, each physical alias key has its own flag equal to the direction of
the most recent event on that specific key, and the movement value read by
the physics loop is the OR of a direction's two alias flags; so after
pressing both aliases and releasing one, the direction still reads true. -/
theorem c9_alias_tracking (st : HookState) (evs : List (Nat × WMsg))
    (hen : st.enabled = true)
    (hnt : ∀ e ∈ evs, ¬(isDownW e.2 = true ∧ (e.1 = VK_RSHIFT ∨ e.1 = VK_CAPITAL))) :
    (processEvents st evs).enabled = true
    ∧ (processEvents st evs).keys.key_up = lastDirOn VK_UP evs st.keys.key_up
    ∧ (processEvents st evs).keys.key_k = lastDirOn KEY_K evs st.keys.key_k
    ∧ (processEvents st evs).keys.key_down = lastDirOn VK_DOWN evs st.keys.key_down
    ∧ (processEvents st evs).keys.key_j = lastDirOn KEY_J evs st.keys.key_j
    ∧ (processEvents st evs).keys.key_left = lastDirOn VK_LEFT evs st.keys.key_left
    ∧ (processEvents st evs).keys.key_h = lastDirOn KEY_H evs st.keys.key_h
    ∧ (processEvents st evs).keys.key_right = lastDirOn VK_RIGHT evs st.keys.key_right
    ∧ (processEvents st evs).keys.key_l = lastDirOn KEY_L evs st.keys.key_l
    ∧ upHeld (processEvents st evs).keys
        = (lastDirOn VK_UP evs st.keys.key_up || lastDirOn KEY_K evs st.keys.key_k)
    ∧ downHeld (processEvents st evs).keys
        = (lastDirOn VK_DOWN evs st.keys.key_down || lastDirOn KEY_J evs st.keys.key_j)
    ∧ leftHeld (processEvents st evs).keys
        = (lastDirOn VK_LEFT evs st.keys.key_left || lastDirOn KEY_H evs st.keys.key_h)
    ∧ rightHeld (processEvents st evs).keys
        = (lastDirOn VK_RIGHT evs st.keys.key_right || lastDirOn KEY_L evs st.keys.key_l) := by
  obtain ⟨h1, h2, h3, h4, h5, h6, h7, h8, h9⟩ := tracking_aux evs st hen hnt
  refine ⟨h1, h2, h3, h4, h5, h6, h7, h8, h9, ?_, ?_, ?_, ?_⟩
  · show ((processEvents st evs).keys.key_up || (processEvents st evs).keys.key_k) = _
    rw [h2, h3]
  · show ((processEvents st evs).keys.key_down || (processEvents st evs).keys.key_j) = _
    rw [h4, h5]
  · show ((processEvents st evs).keys.key_left || (processEvents st evs).keys.key_h) = _
    rw [h6, h7]
  · show ((processEvents st evs).keys.key_right || (processEvents st evs).keys.key_l) = _
    rw [h8, h9]

/-- C9, witness: the amended tracking applied to the both-aliases-then-one
release sequence, yielding an up direction that still reads true. -/
theorem c9_alias_tracking_witness :
    upHeld (processEvents { keys := {}, enabled := true }
        [(VK_UP, WMsg.keyDown), (KEY_K, WMsg.keyDown), (VK_UP, WMsg.keyUp)]).keys
      = (lastDirOn VK_UP [(VK_UP, WMsg.keyDown), (KEY_K, WMsg.keyDown), (VK_UP, WMsg.keyUp)] false
        || lastDirOn KEY_K
            [(VK_UP, WMsg.keyDown), (KEY_K, WMsg.keyDown), (VK_UP, WMsg.keyUp)] false) :=
  (c9_alias_tracking { keys := {}, enabled := true }
    [(VK_UP, WMsg.keyDown), (KEY_K, WMsg.keyDown), (VK_UP, WMsg.keyUp)] rfl
    (by decide)).2.2.2.2.2.2.2.2.2.1

/-- Normalizing the zero vector leaves it unchanged (the guard `speed > 0`
fails). -/
theorem normalizeDir_zero : normalizeDir (0 : ℝ × ℝ) = 0 := by
  simp [normalizeDir]

/-- Normalizing any non-zero vector yields a vector of unit squared norm. -/
theorem normalizeDir_sq_one (d : ℝ × ℝ) (h : d ≠ ((0 : ℝ), (0 : ℝ))) :
    (normalizeDir d).1 ^ 2 + (normalizeDir d).2 ^ 2 = 1 := by
  have hne : d.1 ≠ 0 ∨ d.2 ≠ 0 := by
    by_contra hc
    push_neg at hc
    exact h (Prod.ext hc.1 hc.2)
  have hpos : 0 < d.1 ^ 2 + d.2 ^ 2 := by
    rcases hne with h1 | h1
    · have h2 : 0 < d.1 ^ 2 := lt_of_le_of_ne (sq_nonneg _) (Ne.symm (pow_ne_zero 2 h1))
      nlinarith [sq_nonneg d.2]
    · have h2 : 0 < d.2 ^ 2 := lt_of_le_of_ne (sq_nonneg _) (Ne.symm (pow_ne_zero 2 h1))
      nlinarith [sq_nonneg d.1]
  have hs : 0 < Real.sqrt (d.1 ^ 2 + d.2 ^ 2) := Real.sqrt_pos.mpr hpos
  have hsq : Real.sqrt (d.1 ^ 2 + d.2 ^ 2) ^ 2 = d.1 ^ 2 + d.2 ^ 2 :=
    Real.sq_sqrt (le_of_lt hpos)
  have hs0 : Real.sqrt (d.1 ^ 2 + d.2 ^ 2) ≠ 0 := ne_of_gt hs
  simp only [normalizeDir, if_pos hs]
  field_simp

/-- Componentwise value of the gathered direction. -/
theorem gatherDirection_eq (k : KeyState) :
    gatherDirection k
      = ((if leftHeld k then (-1 : ℝ) else 0) + (if rightHeld k then 1 else 0),
         (if upHeld k then (-1 : ℝ) else 0) + (if downHeld k then 1 else 0)) := by
  cases hu : upHeld k <;> cases hd : downHeld k <;> cases hl : leftHeld k <;>
    cases hr : rightHeld k <;>
      simp [gatherDirection, hu, hd, hl, hr]

/-- C4: the direction vector is the sum of the unit contributions
up = (0,−1), down = (0,+1), left = (−1,0), right = (+1,0); opposing held
directions cancel their axis exactly, and both axes cancelling gives a tick
with zero displacement; any non-zero direction is normalized to unit length,
so with the modifier off the per-tick displacement magnitude is the top
speed times dt, whether one or two directions are active. -/
theorem c4_direction_vector (k : KeyState) (dt px py : ℝ) :
    gatherDirection k
      = (if upHeld k then ((0 : ℝ), (-1 : ℝ)) else (0, 0))
        + (if downHeld k then ((0 : ℝ), (1 : ℝ)) else (0, 0))
        + (if leftHeld k then ((-1 : ℝ), (0 : ℝ)) else (0, 0))
        + (if rightHeld k then ((1 : ℝ), (0 : ℝ)) else (0, 0))
    ∧ (upHeld k = true → downHeld k = true → (gatherDirection k).2 = 0)
    ∧ (leftHeld k = true → rightHeld k = true → (gatherDirection k).1 = 0)
    ∧ (upHeld k = true → downHeld k = true → leftHeld k = true → rightHeld k = true →
        integrate k dt px py = (px, py))
    ∧ (gatherDirection k ≠ ((0 : ℝ), (0 : ℝ)) →
        Real.sqrt ((normalizeDir (gatherDirection k)).1 ^ 2
          + (normalizeDir (gatherDirection k)).2 ^ 2) = 1)
    ∧ (0 ≤ dt → k.shiftPressed = false → gatherDirection k ≠ ((0 : ℝ), (0 : ℝ)) →
        Real.sqrt (((integrate k dt px py).1 - px) ^ 2 + ((integrate k dt px py).2 - py) ^ 2)
          = MAX_SPEED_PIX_PER_S * dt) := by
  refine ⟨?_, ?_, ?_, ?_, ?_, ?_⟩
  · cases hu : upHeld k <;> cases hd : downHeld k <;> cases hl : leftHeld k <;>
      cases hr : rightHeld k <;>
        simp [gatherDirection, hu, hd, hl, hr, Prod.ext_iff]
  · intro hu hd
    simp [gatherDirection, hu, hd]
  · intro hl hr
    simp [gatherDirection, hl, hr]
  · intro hu hd hl hr
    have hg : gatherDirection k = ((0 : ℝ), (0 : ℝ)) := by
      simp [gatherDirection, hu, hd, hl, hr]
    simp [integrate, hg, normalizeDir_zero]
  · intro h
    rw [normalizeDir_sq_one _ h, Real.sqrt_one]
  · intro hdt hsh h
    have hsq : (normalizeDir (gatherDirection k)).1 ^ 2
        + (normalizeDir (gatherDirection k)).2 ^ 2 = 1 := normalizeDir_sq_one _ h
    have hm : (0 : ℝ) ≤ MAX_SPEED_PIX_PER_S * dt := by
      have h700 : (0 : ℝ) ≤ MAX_SPEED_PIX_PER_S := by norm_num [MAX_SPEED_PIX_PER_S]
      exact mul_nonneg h700 hdt
    simp only [integrate, hsh, if_neg Bool.false_ne_true, add_sub_cancel_left]
    have key : ((normalizeDir (gatherDirection k)).1 * (MAX_SPEED_PIX_PER_S * 1.0 * dt)) ^ 2
        + ((normalizeDir (gatherDirection k)).2 * (MAX_SPEED_PIX_PER_S * 1.0 * dt)) ^ 2
          = (MAX_SPEED_PIX_PER_S * dt) ^ 2 := by
      have expand : ((normalizeDir (gatherDirection k)).1 * (MAX_SPEED_PIX_PER_S * 1.0 * dt)) ^ 2
          + ((normalizeDir (gatherDirection k)).2 * (MAX_SPEED_PIX_PER_S * 1.0 * dt)) ^ 2
            = ((normalizeDir (gatherDirection k)).1 ^ 2
              + (normalizeDir (gatherDirection k)).2 ^ 2) * (MAX_SPEED_PIX_PER_S * dt) ^ 2 := by
        ring
      rw [expand, hsq, one_mul]
    rw [key, Real.sqrt_sq hm]

/-- C4, witness: with only the right arrow held, no modifier, dt = 1/120
and the cursor at the origin, the tick moves the cursor by exactly
`MAX_SPEED_PIX_PER_S * (1/120)` pixels. -/
theorem c4_direction_vector_witness :
    Real.sqrt (((integrate { key_right := true } (1 / 120) 0 0).1 - 0) ^ 2
        + ((integrate { key_right := true } (1 / 120) 0 0).2 - 0) ^ 2)
      = MAX_SPEED_PIX_PER_S * (1 / 120) := by
  have h := c4_direction_vector { key_right := true } (1 / 120) 0 0
  refine h.2.2.2.2.2 (by norm_num) rfl ?_
  have hg : gatherDirection { key_right := true } = ((1 : ℝ), (0 : ℝ)) := by
    simp [gatherDirection, upHeld, downHeld, leftHeld, rightHeld]
  rw [hg]
  intro hc
  have h1 : (1 : ℝ) = 0 := congrArg Prod.fst hc
  norm_num at h1

/-- C5: the tick displacement is the normalized direction times a scalar
speed times dt, the scalar being 700 px/s without the modifier and exactly
half, 350 px/s, with it; and for the spec scenario — enabled at (500,500),
only right held, dt = 1/120 — the retained position becomes
(500 + 700/120, 500) and the position written to the OS cursor rounds to
(506, 500). -/
theorem c5_scalar_speed_and_scenario :
    (∀ (k : KeyState) (dt px py : ℝ),
      integrate k dt px py
        = (px + (normalizeDir (gatherDirection k)).1
              * ((if k.shiftPressed then (350 : ℝ) else 700) * dt),
           py + (normalizeDir (gatherDirection k)).2
              * ((if k.shiftPressed then (350 : ℝ) else 700) * dt)))
    ∧ enabledTick 1920 1080 { key_right := true } (1 / 120) 500 500
        = ((500 + 700 * (1 / 120 : ℝ), 500), (506, 500)) := by
  constructor
  · intro k dt px py
    cases hs : k.shiftPressed <;>
      simp [integrate, hs, MAX_SPEED_PIX_PER_S, Prod.ext_iff] <;> ring_nf <;> tauto
  · have hg : gatherDirection { key_right := true } = ((1 : ℝ), (0 : ℝ)) := by
      simp [gatherDirection, upHeld, downHeld, leftHeld, rightHeld]
    have hsq : Real.sqrt ((1 : ℝ) ^ 2 + (0 : ℝ) ^ 2) = 1 := by norm_num
    have hn : normalizeDir ((1 : ℝ), (0 : ℝ)) = ((1 : ℝ), (0 : ℝ)) := by
      simp only [normalizeDir]
      rw [hsq]
      norm_num
    have hi : integrate { key_right := true } (1 / 120) 500 500
        = (500 + 700 * (1 / 120 : ℝ), 500) := by
      simp only [integrate, hg, hn, MAX_SPEED_PIX_PER_S]
      norm_num
    have hc : clampToScreen 1920 1080 (500 + 700 * (1 / 120 : ℝ)) 500
        = (500 + 700 * (1 / 120 : ℝ), 500) := by
      simp only [clampToScreen]
      norm_num
    have hr1 : lround (500 + 700 * (1 / 120 : ℝ)) = 506 := by
      have hlt : ¬ (500 + 700 * (1 / 120 : ℝ) < 0) := by norm_num
      simp only [lround, if_neg hlt]
      rw [Int.floor_eq_iff]
      constructor <;> norm_num
    have hr2 : lround (500 : ℝ) = 500 := by
      have hlt : ¬ ((500 : ℝ) < 0) := by norm_num
      simp only [lround, if_neg hlt]
      rw [Int.floor_eq_iff]
      constructor <;> norm_num
    simp only [enabledTick, hi, hc, hr1, hr2]

/-- C6: after clamping, each coordinate independently lies within
[0, dimension − 1]; a coordinate that was below 0 ends exactly at 0, one
beyond dimension − 1 ends exactly at the boundary, and an in-range
coordinate is unchanged. -/
theorem c6_clamp (screenW screenH : Int) (px py : ℝ)
    (hw : 1 ≤ screenW) (hh : 1 ≤ screenH) :
    0 ≤ (clampToScreen screenW screenH px py).1
    ∧ (clampToScreen screenW screenH px py).1 ≤ (screenW : ℝ) - 1
    ∧ 0 ≤ (clampToScreen screenW screenH px py).2
    ∧ (clampToScreen screenW screenH px py).2 ≤ (screenH : ℝ) - 1
    ∧ (px < 0 → (clampToScreen screenW screenH px py).1 = 0)
    ∧ ((screenW : ℝ) - 1 < px → (clampToScreen screenW screenH px py).1 = (screenW : ℝ) - 1)
    ∧ (0 ≤ px → px ≤ (screenW : ℝ) - 1 → (clampToScreen screenW screenH px py).1 = px)
    ∧ (py < 0 → (clampToScreen screenW screenH px py).2 = 0)
    ∧ ((screenH : ℝ) - 1 < py → (clampToScreen screenW screenH px py).2 = (screenH : ℝ) - 1)
    ∧ (0 ≤ py → py ≤ (screenH : ℝ) - 1 → (clampToScreen screenW screenH px py).2 = py) := by
  have hw' : (1 : ℝ) ≤ (screenW : ℝ) := by exact_mod_cast hw
  have hh' : (1 : ℝ) ≤ (screenH : ℝ) := by exact_mod_cast hh
  simp only [clampToScreen]
  split_ifs <;>
    refine ⟨?_, ?_, ?_, ?_, ?_, ?_, ?_, ?_, ?_, ?_⟩ <;> intros <;> first | rfl | linarith

/-- C6, witness: at a 1920×1080 screen, the overshooting position
(2500, −3) clamps exactly to (1919, 0). -/
theorem c6_clamp_witness :
    (clampToScreen 1920 1080 2500 (-3)).1 = 1919
    ∧ (clampToScreen 1920 1080 2500 (-3)).2 = 0 := by
  have h := c6_clamp 1920 1080 2500 (-3) (by decide) (by decide)
  constructor
  · have h6 := h.2.2.2.2.2.1 (by norm_num)
    rw [h6]
    norm_num
  · exact h.2.2.2.2.2.2.2.1 (by norm_num)

end Mousekeys
